import Mathlib

/-!
Shallow embedding of the Monkey-style lexer and parser of this repository
(src/token.rs, src/lexer.rs, src/parser.rs, src/ast/*).

Conventions of the embedding:
* The source text is modelled as a `List Char`; the byte indices of the Rust
  code coincide with character indices on the (ASCII) inputs considered.
* Rust methods mutating `&mut self` become functions returning the new state
  (paired with the produced value where there is one).
* The lexer's three scanning loops (`skip_whitespace`, `read_identifier`,
  `read_number`) are total; they are embedded through one structurally
  recursive loop `advanceWhileGo` driven by a computed gas value that is
  provably sufficient, so that the intended unfolding equations hold exactly.
* The parser's statement-skipping loops can genuinely diverge (there is no
  end-of-input check in the skip-to-semicolon loops), so every recursive
  parser function takes an explicit fuel argument; the outer `none` result
  means "the computation did not finish within the given fuel", while the
  source-level `Option` results of the Rust code appear as the inner
  `Option` values.
* The Rust lexer counts its cursors one per character (read_char advances
  read_position by one per character read) but uses those counts as BYTE
  offsets when slicing identifier and number literals out of the input and
  when comparing against the input's byte length.  On ASCII input the two
  coincide and the plain model below (read_identifier, read_number,
  next_token) is exact.  On non-ASCII input the byte slices can land inside
  a multi-byte character and the program panics; the checked variants
  (read_identifier_checked, read_number_checked, next_token_checked) model
  the byte offsets and character-boundary checks of the slices explicitly,
  with `none` standing for the panic.
-/

/-- Mirrors enum TokenType of src/token.rs. -/
inductive TokenType where
  | Illegal
  | Eof
  | Ident
  | Int
  | Assign
  | Plus
  | Minus
  | Bang
  | Asterisk
  | Slash
  | Comma
  | LessThan
  | GreaterThan
  | Semicolon
  | LeftParen
  | RightParen
  | LeftBrace
  | RightBrace
  | Function
  | Let
  | True
  | False
  | If
  | Else
  | Return
  | Equal
  | NotEqual
deriving DecidableEq, Repr

/-- Mirrors enum Precedence of src/parser.rs. -/
inductive Precedence where
  | Lowest
  | Equals
  | LessGreater
  | Sum
  | Product
  | Pref
  | Call
deriving DecidableEq, Repr

/-- Mirrors Precedence::value of src/parser.rs (the `Pref` constructor
embeds the source's sixth level, written for the `-x` / `!x` operators). -/
def Precedence.value : Precedence → Nat
  | .Lowest => 1
  | .Equals => 2
  | .LessGreater => 3
  | .Sum => 4
  | .Product => 5
  | .Pref => 6
  | .Call => 7

/-- Mirrors TokenType::get_literal of src/token.rs; the wildcard arm of the
source returns the empty string (it covers Illegal, Eof and Ident). -/
def TokenType.get_literal : TokenType → String
  | .Int => "int"
  | .Assign => "="
  | .Plus => "+"
  | .Minus => "-"
  | .Bang => "!"
  | .Asterisk => "*"
  | .Slash => "/"
  | .Comma => ","
  | .LessThan => "<"
  | .GreaterThan => ">"
  | .Semicolon => ";"
  | .LeftParen => "("
  | .RightParen => ")"
  | .LeftBrace => "\x7b"
  | .RightBrace => "\x7d"
  | .Function => "function"
  | .Let => "let"
  | .True => "true"
  | .False => "false"
  | .If => "if"
  | .Else => "else"
  | .Return => "return"
  | .Equal => "=="
  | .NotEqual => "!="
  | _ => ""

/-- Mirrors TokenType::precedence of src/token.rs. -/
def TokenType.precedence : TokenType → Precedence
  | .Plus | .Minus => .Sum
  | .Asterisk | .Slash => .Product
  | .LessThan | .GreaterThan => .LessGreater
  | .Equal | .NotEqual => .Equals
  | _ => .Lowest

/-- Mirrors TokenType::is_infix of src/token.rs. -/
def TokenType.is_infix_op : TokenType → Bool
  | .Plus | .Minus | .Asterisk | .Slash
  | .LessThan | .GreaterThan | .Equal | .NotEqual => true
  | _ => false

/-- Mirrors struct Token of src/token.rs. -/
structure Token where
  token_type : TokenType
  literal : String
deriving DecidableEq, Repr

/-- Mirrors Lexer::is_letter of src/lexer.rs.  Rust's char::is_alphabetic
tests the Unicode Alphabetic property; this embedding uses its ASCII
fragment (Char.isAlpha) plus underscore.  Non-ASCII alphabetic characters,
on which the two classifiers differ, appear in no theorem of this file;
the non-ASCII character § used below is alphabetic in neither. -/
def is_letter (c : Char) : Bool := c.isAlpha || c == '_'

/-- Mirrors Lexer::is_digit of src/lexer.rs (char::is_ascii_digit). -/
def is_digit (c : Char) : Bool := c.isDigit

/-- The whitespace test inlined in Lexer::skip_whitespace of src/lexer.rs. -/
def is_whitespace_char (c : Char) : Bool :=
  c == ' ' || c == '\t' || c == '\n' || c == '\r'

/-- Mirrors the static KEYWORDS table together with Lexer::lookup_ident of
src/lexer.rs. -/
def lookup_ident (s : String) : TokenType :=
  if s = "fn" then .Function
  else if s = "let" then .Let
  else if s = "true" then .True
  else if s = "false" then .False
  else if s = "if" then .If
  else if s = "else" then .Else
  else if s = "return" then .Return
  else .Ident

/-- Mirrors struct Lexer of src/lexer.rs. -/
structure Lexer where
  input : List Char
  position : Nat
  read_position : Nat
  ch : Option Char
deriving DecidableEq, Repr

namespace Lexer

/-- Mirrors Lexer::read_char of src/lexer.rs. -/
def read_char (l : Lexer) : Lexer :=
  { l with
    ch := if l.input.length ≤ l.read_position then none
          else l.input.get? l.read_position
    position := l.read_position
    read_position := l.read_position + 1 }

/-- Mirrors Lexer::new of src/lexer.rs. -/
def new (input : List Char) : Lexer :=
  read_char { input := input, position := 0, read_position := 0, ch := none }

/-- Mirrors Lexer::peek_char of src/lexer.rs. -/
def peek_char (l : Lexer) : Option Char :=
  if l.input.length ≤ l.read_position then none
  else l.input.get? l.read_position

/-- Gas bound for the lexer's scanning loops: the loops advance
`read_position` at every step and stop no later than one step after it
passes the end of the input. -/
def gas (l : Lexer) : Nat :=
  l.input.length + 1 - l.read_position + (if l.ch.isSome then 1 else 0)

/-- Structural engine for the three character-consuming loops of
src/lexer.rs (skip_whitespace, read_identifier, read_number), which all
advance with read_char while the current character satisfies a predicate. -/
def advanceWhileGo (p : Char → Bool) : Nat → Lexer → Lexer
  | 0, l => l
  | g + 1, l =>
    match l.ch with
    | some c => if p c then advanceWhileGo p g l.read_char else l
    | none => l

/-- The while-loop shared by skip_whitespace / read_identifier / read_number
of src/lexer.rs, instantiated with the loop's continue-condition. -/
def advance_while (p : Char → Bool) (l : Lexer) : Lexer :=
  advanceWhileGo p l.gas l

theorem gas_read_char_lt (l : Lexer) (h : l.ch.isSome) :
    l.read_char.gas < l.gas := by
  have h2 : l.gas = l.input.length + 1 - l.read_position + 1 := by
    unfold gas
    rw [if_pos h]
  by_cases hc : l.input.length ≤ l.read_position
  · have h1 : l.read_char.gas = l.input.length + 1 - (l.read_position + 1) := by
      unfold gas read_char
      simp [if_pos hc]
    omega
  · have h1 : l.read_char.gas ≤ l.input.length + 1 - (l.read_position + 1) + 1 := by
      unfold gas read_char
      simp only [if_neg hc]
      split <;> omega
    omega

theorem advanceWhileGo_congr (p : Char → Bool) :
    ∀ g₁ g₂ l, l.gas ≤ g₁ → l.gas ≤ g₂ →
      advanceWhileGo p g₁ l = advanceWhileGo p g₂ l := by
  intro g₁
  induction g₁ using Nat.strong_induction_on with
  | _ g₁ ih =>
    intro g₂ l h₁ h₂
    match g₁, g₂ with
    | 0, g₂ =>
      have hz : l.gas = 0 := Nat.le_zero.mp h₁
      cases g₂ with
      | zero => rfl
      | succ g₂ =>
        unfold advanceWhileGo
        match hch : l.ch with
        | some c =>
          exfalso
          unfold gas at hz
          simp [hch] at hz
        | none => rfl
    | g₁ + 1, 0 =>
      have hz : l.gas = 0 := Nat.le_zero.mp h₂
      unfold advanceWhileGo
      match hch : l.ch with
      | some c =>
        exfalso
        unfold gas at hz
        simp [hch] at hz
      | none => rfl
    | g₁ + 1, g₂ + 1 =>
      unfold advanceWhileGo
      match hch : l.ch with
      | some c =>
        by_cases hp : p c
        · simp only [hp, if_true]
          have hlt : l.read_char.gas < l.gas := by
            exact gas_read_char_lt l (by simp [hch])
          exact ih g₁ (Nat.lt_succ_self g₁) g₂ l.read_char
            (by omega) (by omega)
        · simp [hp]
      | none => rfl

/-- Unfolding equation: the loop stops at end of input. -/
theorem advance_while_none (p : Char → Bool) (l : Lexer) (h : l.ch = none) :
    l.advance_while p = l := by
  unfold advance_while
  cases hg : l.gas with
  | zero => rfl
  | succ g => unfold advanceWhileGo; simp [h]

/-- Unfolding equation: the loop stops at a character failing the test. -/
theorem advance_while_neg (p : Char → Bool) (l : Lexer) (c : Char)
    (h : l.ch = some c) (hp : p c = false) :
    l.advance_while p = l := by
  unfold advance_while
  have hg : 1 ≤ l.gas := by
    unfold gas
    simp [h]
  obtain ⟨g, hg'⟩ : ∃ g, l.gas = g + 1 := ⟨l.gas - 1, by omega⟩
  rw [hg']
  unfold advanceWhileGo
  simp [h, hp]

/-- Unfolding equation: the loop advances over a character passing the
test. -/
theorem advance_while_pos (p : Char → Bool) (l : Lexer) (c : Char)
    (h : l.ch = some c) (hp : p c = true) :
    l.advance_while p = l.read_char.advance_while p := by
  unfold advance_while
  have hg : 1 ≤ l.gas := by
    unfold gas
    simp [h]
  obtain ⟨g, hg'⟩ : ∃ g, l.gas = g + 1 := ⟨l.gas - 1, by omega⟩
  rw [hg']
  simp only [advanceWhileGo, h, hp, if_true]
  exact advanceWhileGo_congr p g l.read_char.gas l.read_char
    (by have := gas_read_char_lt l (by simp [h]); omega)
    (Nat.le_refl _)

/-- Mirrors Lexer::skip_whitespace of src/lexer.rs. -/
def skip_whitespace (l : Lexer) : Lexer :=
  l.advance_while is_whitespace_char

/-- Mirrors Lexer::read_identifier of src/lexer.rs: advances over the
maximal run of letters and returns the slice input[position..position']. -/
def read_identifier (l : Lexer) : String × Lexer :=
  let position := l.position
  let l' := l.advance_while is_letter
  (String.mk ((l'.input.take l'.position).drop position), l')

/-- Mirrors Lexer::read_number of src/lexer.rs. -/
def read_number (l : Lexer) : String × Lexer :=
  let position := l.position
  let l' := l.advance_while is_digit
  (String.mk ((l'.input.take l'.position).drop position), l')

/-- Mirrors Lexer::next_token of src/lexer.rs.  The token produced by
each arm of the Rust match is paired with the lexer state after the
trailing read_char call; the identifier and number arms return early in
the source and hence skip that trailing advance. -/
def next_token (l : Lexer) : Token × Lexer :=
  let l := l.skip_whitespace
  match l.ch with
  | some '=' =>
    if l.peek_char = some '=' then
      (Token.mk .Equal "==", l.read_char.read_char)
    else
      (Token.mk .Assign "=", l.read_char)
  | some '+' => (Token.mk .Plus "+", l.read_char)
  | some '-' => (Token.mk .Minus "-", l.read_char)
  | some '!' =>
    if l.peek_char = some '=' then
      (Token.mk .NotEqual "!=", l.read_char.read_char)
    else
      (Token.mk .Bang "!", l.read_char)
  | some '/' => (Token.mk .Slash "/", l.read_char)
  | some '*' => (Token.mk .Asterisk "*", l.read_char)
  | some '<' => (Token.mk .LessThan "<", l.read_char)
  | some '>' => (Token.mk .GreaterThan ">", l.read_char)
  | some ',' => (Token.mk .Comma ",", l.read_char)
  | some ';' => (Token.mk .Semicolon ";", l.read_char)
  | some '(' => (Token.mk .LeftParen "(", l.read_char)
  | some ')' => (Token.mk .RightParen ")", l.read_char)
  | some '\x7b' => (Token.mk .LeftBrace "\x7b", l.read_char)
  | some '\x7d' => (Token.mk .RightBrace "\x7d", l.read_char)
  | some c =>
    if is_letter c then
      let r := l.read_identifier
      (Token.mk (lookup_ident r.1) r.1, r.2)
    else if is_digit c then
      let r := l.read_number
      (Token.mk .Int r.1, r.2)
    else
      (Token.mk .Illegal (String.mk [c]), l.read_char)
  | none => (Token.mk .Eof "", l.read_char)

end Lexer

/-- The UTF-8 byte length of a character (Rust char::len_utf8). -/
def utf8_size (c : Char) : Nat :=
  if c.toNat < 0x80 then 1
  else if c.toNat < 0x800 then 2
  else if c.toNat < 0x10000 then 3
  else 4

/-- Converts a byte offset into the UTF-8 encoding of a character list to
the corresponding character index: some i when the offset lands exactly on
the boundary in front of the i-th character (or at the very end), none
when it falls inside a multi-byte character or past the end. -/
def utf8_boundary? : List Char → Nat → Option Nat
  | _, 0 => some 0
  | [], _ + 1 => none
  | c :: cs, k + 1 =>
    if utf8_size c ≤ k + 1 then
      (utf8_boundary? cs (k + 1 - utf8_size c)).map (fun i => i + 1)
    else none

/-- Models Rust &str range indexing s[a..b] by byte offsets, as performed
by the slices at lexer.rs:113 and lexer.rs:126: the characters between the
two offsets when both are character boundaries and a ≤ b, and none — the
slice panics in Rust — otherwise. -/
def utf8_slice? (cs : List Char) (a b : Nat) : Option (List Char) :=
  match utf8_boundary? cs a, utf8_boundary? cs b with
  | some i, some j => if a ≤ b then some ((cs.take j).drop i) else none
  | _, _ => none

namespace Lexer

/-- Byte-faithful model of Lexer::read_identifier of src/lexer.rs: the
maximal run of letters is consumed with read_char, and the original input
is then sliced at input[position..position'] — the source interprets these
character-counted cursor values as BYTE offsets, so the slice panics
(here: none) when an offset is not a character boundary of the UTF-8
encoding.  On all-ASCII input this agrees with read_identifier. -/
def read_identifier_checked (l : Lexer) : Option (String × Lexer) :=
  let l' := l.advance_while is_letter
  match utf8_slice? l'.input l.position l'.position with
  | none => none
  | some s => some (String.mk s, l')

/-- Byte-faithful model of Lexer::read_number of src/lexer.rs, with the
same byte-offset slice (and panic path) as read_identifier_checked. -/
def read_number_checked (l : Lexer) : Option (String × Lexer) :=
  let l' := l.advance_while is_digit
  match utf8_slice? l'.input l.position l'.position with
  | none => none
  | some s => some (String.mk s, l')

/-- Byte-faithful model of Lexer::next_token of src/lexer.rs: identical to
next_token except that the identifier and number arms go through the
checked byte-offset slices, so `none` marks the input on which the source
program panics instead of returning a token. -/
def next_token_checked (l : Lexer) : Option (Token × Lexer) :=
  let l := l.skip_whitespace
  match l.ch with
  | some '=' =>
    if l.peek_char = some '=' then
      some (Token.mk .Equal "==", l.read_char.read_char)
    else
      some (Token.mk .Assign "=", l.read_char)
  | some '+' => some (Token.mk .Plus "+", l.read_char)
  | some '-' => some (Token.mk .Minus "-", l.read_char)
  | some '!' =>
    if l.peek_char = some '=' then
      some (Token.mk .NotEqual "!=", l.read_char.read_char)
    else
      some (Token.mk .Bang "!", l.read_char)
  | some '/' => some (Token.mk .Slash "/", l.read_char)
  | some '*' => some (Token.mk .Asterisk "*", l.read_char)
  | some '<' => some (Token.mk .LessThan "<", l.read_char)
  | some '>' => some (Token.mk .GreaterThan ">", l.read_char)
  | some ',' => some (Token.mk .Comma ",", l.read_char)
  | some ';' => some (Token.mk .Semicolon ";", l.read_char)
  | some '(' => some (Token.mk .LeftParen "(", l.read_char)
  | some ')' => some (Token.mk .RightParen ")", l.read_char)
  | some '\x7b' => some (Token.mk .LeftBrace "\x7b", l.read_char)
  | some '\x7d' => some (Token.mk .RightBrace "\x7d", l.read_char)
  | some c =>
    if is_letter c then
      match l.read_identifier_checked with
      | none => none
      | some r => some (Token.mk (lookup_ident r.1) r.1, r.2)
    else if is_digit c then
      match l.read_number_checked with
      | none => none
      | some r => some (Token.mk .Int r.1, r.2)
    else
      some (Token.mk .Illegal (String.mk [c]), l.read_char)
  | none => some (Token.mk .Eof "", l.read_char)

end Lexer

/-- Mirrors struct IdentExpression of src/ast/expressions/ident_expression.rs. -/
structure IdentExpression where
  token : Token
  value : String
deriving DecidableEq, Repr

/-- Mirrors struct IntegerLiteral of src/ast/expressions/integer_expression.rs
(value is an i64). -/
structure IntegerLiteral where
  token : Token
  value : Int
deriving DecidableEq, Repr

/-- Mirrors enum Expression of src/ast/mod.rs; the recursive structs
PrefixExpression and InfixExpression appear with their fields inlined into
the corresponding constructors (Box indirections dropped). -/
inductive Expression where
  | Ident (e : IdentExpression)
  | Integer (e : IntegerLiteral)
  | Prefix (token : Token) (operator : String) (right : Expression)
  | Infix (token : Token) (left : Expression) (operator : String) (right : Expression)
deriving DecidableEq, Repr

/-- Mirrors struct LetStatement of src/ast/statements/let_statement.rs. -/
structure LetStatement where
  token : Token
  name : IdentExpression
  value : Expression
deriving DecidableEq, Repr

/-- Mirrors struct ReturnStatement of src/ast/statements/return_statement.rs. -/
structure ReturnStatement where
  token : Token
  value : Expression
deriving DecidableEq, Repr

/-- Mirrors struct ExpressionStatement of
src/ast/statements/expression_statement.rs. -/
structure ExpressionStatement where
  token : Token
  expression : Expression
deriving DecidableEq, Repr

/-- Mirrors enum Statement of src/ast/mod.rs. -/
inductive Statement where
  | Let (s : LetStatement)
  | Return (s : ReturnStatement)
  | Expression (s : ExpressionStatement)
deriving DecidableEq, Repr

/-- Mirrors struct Program of src/ast/mod.rs. -/
structure Program where
  statements : List Statement
deriving DecidableEq, Repr

/-- Mirrors the Display implementations of the Expression variants:
an identifier prints its value, an integer its numeric value, a prefix
expression prints as (operator right) without a space, an infix
expression as (left operator right) with spaces. -/
def Expression.to_string : Expression → String
  | .Ident e => e.value
  | .Integer e => toString e.value
  | .Prefix _ operator right =>
    "(" ++ operator ++ right.to_string ++ ")"
  | .Infix _ left operator right =>
    "(" ++ left.to_string ++ " " ++ operator ++ " " ++ right.to_string ++ ")"

/-- Mirrors Statement::token_literal of src/ast/mod.rs (each variant
forwards to its stored token's literal). -/
def Statement.token_literal : Statement → String
  | .Let s => s.token.literal
  | .Return s => s.token.literal
  | .Expression s => s.token.literal

/-- Mirrors the Display implementations of the Statement variants
(src/ast/statements/*). -/
def Statement.to_string : Statement → String
  | .Let s => s.token.literal ++ " " ++ s.name.value ++ " = " ++ s.value.to_string ++ ";"
  | .Return s => s.token.literal ++ " " ++ s.value.to_string ++ ";"
  | .Expression s => s.expression.to_string

/-- Mirrors the Display implementation of Program (concatenates the
renderings of its statements in order). -/
def Program.to_string (p : Program) : String :=
  p.statements.foldl (fun acc s => acc ++ s.to_string) ""

/-- Models str::parse::<i64> as called by Parser::parse_integer_literal:
an optional sign followed by at least one ASCII digit, rejected when the
value does not fit the 64-bit signed range.  (The lexer only ever feeds it
nonempty unsigned digit runs.) -/
def parse_i64 (s : String) : Option Int :=
  let signed : Int × List Char :=
    match s.toList with
    | '-' :: rest => (-1, rest)
    | '+' :: rest => (1, rest)
    | cs => (1, cs)
  if signed.2 = [] ∨ ¬ signed.2.all is_digit then none
  else
    let n : Nat := signed.2.foldl (fun acc c => acc * 10 + (c.toNat - '0'.toNat)) 0
    let v : Int := signed.1 * n
    if v < -(2 ^ 63) ∨ 2 ^ 63 - 1 < v then none else some v

/-- Mirrors struct Parser of src/parser.rs. -/
structure Parser where
  lexer : Lexer
  cur_token : Token
  peek_token : Token
  errors : List String
deriving DecidableEq, Repr

namespace Parser

/-- Mirrors Parser::new of src/parser.rs: primes both token fields by
pulling two tokens from the lexer. -/
def new (lx : Lexer) : Parser :=
  let r1 := lx.next_token
  let r2 := r1.2.next_token
  { lexer := r2.2, cur_token := r1.1, peek_token := r2.1, errors := [] }

/-- Mirrors Parser::next_token of src/parser.rs. -/
def next_token (p : Parser) : Parser :=
  let r := p.lexer.next_token
  { p with lexer := r.2, cur_token := p.peek_token, peek_token := r.1 }

/-- Mirrors Parser::cur_token_is of src/parser.rs. -/
def cur_token_is (p : Parser) (t : TokenType) : Bool :=
  p.cur_token.token_type == t

/-- Mirrors Parser::peek_token_is of src/parser.rs. -/
def peek_token_is (p : Parser) (t : TokenType) : Bool :=
  p.peek_token.token_type == t

/-- Mirrors Parser::cur_precedence of src/parser.rs. -/
def cur_precedence (p : Parser) : Precedence :=
  p.cur_token.token_type.precedence

/-- Mirrors Parser::peek_precedence of src/parser.rs. -/
def peek_precedence (p : Parser) : Precedence :=
  p.peek_token.token_type.precedence

/-- Mirrors Parser::peek_error of src/parser.rs. -/
def peek_error (p : Parser) (t : TokenType) : Parser :=
  { p with errors := p.errors ++
      ["expected next token to be \"" ++ t.get_literal ++ "\", got \""
        ++ p.peek_token.token_type.get_literal ++ "\" instead"] }

/-- Mirrors Parser::expect_peek of src/parser.rs. -/
def expect_peek (p : Parser) (t : TokenType) : Bool × Parser :=
  if p.peek_token_is t then (true, p.next_token)
  else (false, p.peek_error t)

/-- Mirrors Parser::parse_identifier of src/parser.rs (reads state only). -/
def parse_identifier (p : Parser) : Option Expression :=
  some (.Ident ⟨p.cur_token, p.cur_token.literal⟩)

/-- Mirrors Parser::parse_integer_literal of src/parser.rs.  The pushed
message embeds the ParseIntError description in the source; the embedding
abbreviates that trailing description, which no theorem below inspects. -/
def parse_integer_literal (p : Parser) : Option Expression × Parser :=
  match parse_i64 p.cur_token.literal with
  | none =>
    (none, { p with errors := p.errors ++
        ["Could not parse " ++ p.cur_token.literal ++ " as integer: invalid"] })
  | some v => (some (.Integer ⟨p.cur_token, v⟩), p)

mutual

/-- Mirrors Parser::parse_expression of src/parser.rs.  The outer `none`
of the result means the computation ran out of fuel; `some (e?, p)` is the
source-level result `e?` together with the parser state. -/
def parse_expression : Nat → Nat → Parser → Option (Option Expression × Parser)
  | 0, _, _ => none
  | fuel + 1, precedence, p =>
    match prefix_parse fuel p with
    | none => none
    | some lp => parse_expression_loop fuel precedence lp.1 lp.2

/-- The while-loop inside Parser::parse_expression of src/parser.rs; the
`left` argument is the loop-carried left_expression.  The arm taking
`left = none` embeds the source's early return through the `?` operator on
left_expression. -/
def parse_expression_loop :
    Nat → Nat → Option Expression → Parser → Option (Option Expression × Parser)
  | 0, _, _, _ => none
  | fuel + 1, precedence, left, p =>
    if ¬ p.peek_token_is .Semicolon ∧ precedence < p.peek_precedence.value then
      if ¬ p.peek_token.token_type.is_infix_op then some (left, p)
      else
        let p' := p.next_token
        match left with
        | none => some (none, p')
        | some l =>
          match parse_infix_expression fuel l p' with
          | none => none
          | some r => parse_expression_loop fuel precedence r.1 r.2
    else some (left, p)

/-- Mirrors Parser::prefix_parse of src/parser.rs. -/
def prefix_parse : Nat → Parser → Option (Option Expression × Parser)
  | 0, _ => none
  | fuel + 1, p =>
    match p.cur_token.token_type with
    | .Ident => some (p.parse_identifier, p)
    | .Int => some p.parse_integer_literal
    | .Minus => parse_prefix_expression fuel p
    | .Bang => parse_prefix_expression fuel p
    | _ => some (none, p)

/-- Mirrors Parser::parse_prefix_expression of src/parser.rs. -/
def parse_prefix_expression : Nat → Parser → Option (Option Expression × Parser)
  | 0, _ => none
  | fuel + 1, p =>
    let token := p.cur_token
    let operator := token.literal
    match parse_expression fuel Precedence.Pref.value p.next_token with
    | none => none
    | some (none, p') => some (none, p')
    | some (some right, p') => some (some (.Prefix token operator right), p')

/-- Mirrors Parser::parse_infix_expression of src/parser.rs. -/
def parse_infix_expression : Nat → Expression → Parser → Option (Option Expression × Parser)
  | 0, _, _ => none
  | fuel + 1, left, p =>
    let token := p.cur_token
    let operator := token.literal
    let precedence := p.cur_precedence
    match parse_expression fuel precedence.value p.next_token with
    | none => none
    | some (none, p') => some (none, p')
    | some (some right, p') => some (some (.Infix token left operator right), p')

end

/-- The token-skipping loop `while !cur_token_is(Semicolon) next_token`
shared by Parser::parse_let_statement and Parser::parse_return_statement
of src/parser.rs; `none` means the loop did not reach a semicolon within
the given fuel. -/
def skip_to_semicolon : Nat → Parser → Option Parser
  | 0, _ => none
  | fuel + 1, p =>
    if p.cur_token_is .Semicolon then some p
    else skip_to_semicolon fuel p.next_token

/-- Mirrors Parser::parse_let_statement of src/parser.rs. -/
def parse_let_statement (fuel : Nat) (p : Parser) : Option (Option Statement × Parser) :=
  let r1 := p.expect_peek .Ident
  if !r1.1 then some (none, r1.2)
  else
    let p1 := r1.2
    let name : IdentExpression := ⟨p1.cur_token, p1.cur_token.literal⟩
    let r2 := p1.expect_peek .Assign
    if !r2.1 then some (none, r2.2)
    else
      match skip_to_semicolon fuel r2.2 with
      | none => none
      | some p2 =>
        let dummy_value : IdentExpression := ⟨p2.cur_token, p2.cur_token.literal⟩
        some (some (.Let ⟨p2.cur_token, name, .Ident dummy_value⟩), p2)

/-- Mirrors Parser::parse_return_statement of src/parser.rs. -/
def parse_return_statement (fuel : Nat) (p : Parser) : Option (Option Statement × Parser) :=
  let dummy_value : IdentExpression := ⟨⟨.Ident, "foo"⟩, "foo"⟩
  let stmt : ReturnStatement := ⟨p.cur_token, .Ident dummy_value⟩
  match skip_to_semicolon fuel p.next_token with
  | none => none
  | some p' => some (some (.Return stmt), p')

/-- Mirrors Parser::parse_expression_statement of src/parser.rs. -/
def parse_expression_statement (fuel : Nat) (p : Parser) : Option (Option Statement × Parser) :=
  match parse_expression fuel Precedence.Lowest.value p with
  | none => none
  | some (none, p') => some (none, p')
  | some (some e, p') =>
    let stmt : ExpressionStatement := ⟨p'.cur_token, e⟩
    let p'' := if p'.peek_token_is .Semicolon then p'.next_token else p'
    some (some (.Expression stmt), p'')

/-- Mirrors Parser::parse_statement of src/parser.rs. -/
def parse_statement (fuel : Nat) (p : Parser) : Option (Option Statement × Parser) :=
  match p.cur_token.token_type with
  | .Let => parse_let_statement fuel p
  | .Return => parse_return_statement fuel p
  | _ => parse_expression_statement fuel p

/-- The loop of Parser::parse_program of src/parser.rs. -/
def parse_program_loop : Nat → Parser → Program → Option (Program × Parser)
  | 0, _, _ => none
  | fuel + 1, p, prog =>
    if p.cur_token_is .Eof then some (prog, p)
    else
      match parse_statement fuel p with
      | none => none
      | some (r, p') =>
        let prog' : Program := match r with
          | some s => ⟨prog.statements ++ [s]⟩
          | none => prog
        parse_program_loop fuel p'.next_token prog'

/-- Mirrors Parser::parse_program of src/parser.rs; the final parser state
is returned alongside the program so that the accumulated errors remain
observable. -/
def parse_program (fuel : Nat) (p : Parser) : Option (Program × Parser) :=
  parse_program_loop fuel p ⟨[]⟩

end Parser

/-- End-to-end harness: lex and parse an input text. -/
def parse_input (fuel : Nat) (input : List Char) : Option (Program × Parser) :=
  Parser.parse_program fuel (Parser.new (Lexer.new input))

/-- End-to-end harness: lex, parse and render an input text. -/
def render_input (fuel : Nat) (input : List Char) : Option String :=
  (parse_input fuel input).map fun r => r.1.to_string

namespace Lexer

/-- skip_whitespace does nothing at end of input. -/
theorem skip_whitespace_at_end (l : Lexer) (h : l.ch = none) :
    l.skip_whitespace = l := by
  unfold skip_whitespace
  exact advance_while_none _ _ h

/-- skip_whitespace does nothing on a non-whitespace current character. -/
theorem skip_whitespace_not_ws (l : Lexer) (c : Char) (h : l.ch = some c)
    (hw : is_whitespace_char c = false) : l.skip_whitespace = l := by
  unfold skip_whitespace
  exact advance_while_neg _ _ _ h hw

/-- The cursor invariant of every lexer state reachable from Lexer::new:
the current character is the one the input holds at `position`, and
`read_position` trails it by exactly one. -/
abbrev Wf (l : Lexer) : Prop :=
  l.ch = l.input.get? l.position ∧ l.read_position = l.position + 1

theorem read_char_wf (l : Lexer) : l.read_char.Wf := by
  constructor
  · show (if l.input.length ≤ l.read_position then none
          else l.input.get? l.read_position) = l.input.get? l.read_position
    by_cases hc : l.input.length ≤ l.read_position
    · rw [if_pos hc, (List.get?_eq_none).mpr hc]
    · rw [if_neg hc]
  · rfl

theorem new_wf (input : List Char) : (Lexer.new input).Wf :=
  read_char_wf _

theorem read_char_ch_none (l : Lexer) (hwf : l.Wf) (h : l.ch = none) :
    l.read_char.ch = none := by
  show (if l.input.length ≤ l.read_position then none
        else l.input.get? l.read_position) = none
  have hlen : l.input.length ≤ l.position := (List.get?_eq_none).mp (hwf.1 ▸ h)
  have hrp : l.read_position = l.position + 1 := hwf.2
  rw [if_pos (by omega)]

/-- At end of input, next_token produces the Eof token with empty literal
and just advances the (exhausted) cursor. -/
theorem next_token_at_end (l : Lexer) (h : l.ch = none) :
    l.next_token = (Token.mk .Eof "", l.read_char) := by
  unfold next_token
  simp only [skip_whitespace_at_end l h, h]

end Lexer

/-- Runs the tokenizer n times, keeping only the lexer state (the stream
position after n tokens have been produced). -/
def Lexer.drop_tokens : Nat → Lexer → Lexer
  | 0, l => l
  | n + 1, l => Lexer.drop_tokens n (l.next_token).2

/-- C9: once the tokenizer's current character is none (end of input),
next_token returns the end-of-input token with empty literal, and every
subsequent call returns end-of-input again: after discarding any number of
further tokens, the produced token is still the Eof token. -/
theorem c9_eof_idempotent (l : Lexer) (hwf : l.Wf) (h : l.ch = none) :
    ∀ n : Nat, ((Lexer.drop_tokens n l).next_token).1 = Token.mk .Eof "" := by
  have key : ∀ (n : Nat) (l : Lexer), l.Wf → l.ch = none →
      (Lexer.drop_tokens n l).Wf ∧ (Lexer.drop_tokens n l).ch = none := by
    intro n
    induction n with
    | zero => intro l hwf h; exact ⟨hwf, h⟩
    | succ n ih =>
      intro l hwf h
      have hnext : (l.next_token).2 = l.read_char := by
        rw [Lexer.next_token_at_end l h]
      show (Lexer.drop_tokens n (l.next_token).2).Wf ∧
        (Lexer.drop_tokens n (l.next_token).2).ch = none
      rw [hnext]
      exact ih l.read_char (Lexer.read_char_wf l) (Lexer.read_char_ch_none l hwf h)
  intro n
  obtain ⟨w1, w2⟩ := key n l hwf h
  rw [Lexer.next_token_at_end _ w2]

/-- Witness for C9 on the empty input: the lexer starts at end of input and
the fourth (and every) token is still Eof with empty literal. -/
theorem c9_eof_idempotent_witness :
    (Lexer.new []).Wf ∧ (Lexer.new []).ch = none ∧
      ((Lexer.drop_tokens 3 (Lexer.new [])).next_token).1 = Token.mk .Eof "" :=
  ⟨by decide, by decide, c9_eof_idempotent (Lexer.new []) (by decide) (by decide) 3⟩

/-- C3: precedence and associativity round-trips: the parsed ASTs of the
four sample inputs render back to their fully parenthesized forms, with
the last input parsing as two statements. -/
theorem c3_precedence_rendering :
    render_input 100 ("a + b * c".toList) = some "(a + (b * c))" ∧
    render_input 100 ("-a * b".toList) = some "((-a) * b)" ∧
    render_input 100 ("a + b + c".toList) = some "((a + b) + c)" ∧
    (parse_input 100 ("3 + 4; -5 * 5".toList)).map
        (fun r => r.1.statements.length) = some 2 ∧
    render_input 100 ("3 + 4; -5 * 5".toList) = some "(3 + 4)((-5) * 5)" := by
  refine ⟨by decide, by decide, by decide, by decide, by decide⟩

/-- C8: a two-character operator is consumed as one token: on `=` with
peek `=` the lexer emits one Equal token with literal "==" (consuming both
characters), on `!` with peek `=` one NotEqual token "!="; a lone `=`
yields Assign and a lone `!` yields Bang. -/
theorem c8_two_char_operators (l : Lexer) :
    (l.ch = some '=' → l.peek_char = some '=' →
      l.next_token = (Token.mk .Equal "==", l.read_char.read_char)) ∧
    (l.ch = some '=' → l.peek_char ≠ some '=' →
      l.next_token = (Token.mk .Assign "=", l.read_char)) ∧
    (l.ch = some '!' → l.peek_char = some '=' →
      l.next_token = (Token.mk .NotEqual "!=", l.read_char.read_char)) ∧
    (l.ch = some '!' → l.peek_char ≠ some '=' →
      l.next_token = (Token.mk .Bang "!", l.read_char)) := by
  refine ⟨fun h hp => ?_, fun h hp => ?_, fun h hp => ?_, fun h hp => ?_⟩
  · unfold Lexer.next_token
    simp only [Lexer.skip_whitespace_not_ws l '=' h (by decide), h, hp]
    simp
  · unfold Lexer.next_token
    simp only [Lexer.skip_whitespace_not_ws l '=' h (by decide), h]
    rw [if_neg hp]
  · unfold Lexer.next_token
    simp only [Lexer.skip_whitespace_not_ws l '!' h (by decide), h, hp]
    simp
  · unfold Lexer.next_token
    simp only [Lexer.skip_whitespace_not_ws l '!' h (by decide), h]
    rw [if_neg hp]

/-- Witness for C8 on the inputs "==", "=", "!=", "!". -/
theorem c8_two_char_operators_witness :
    (Lexer.new ("==".toList)).next_token
        = (Token.mk .Equal "==", (Lexer.new ("==".toList)).read_char.read_char) ∧
    (Lexer.new ("=".toList)).next_token
        = (Token.mk .Assign "=", (Lexer.new ("=".toList)).read_char) ∧
    (Lexer.new ("!=".toList)).next_token
        = (Token.mk .NotEqual "!=", (Lexer.new ("!=".toList)).read_char.read_char) ∧
    (Lexer.new ("!".toList)).next_token
        = (Token.mk .Bang "!", (Lexer.new ("!".toList)).read_char) :=
  ⟨(c8_two_char_operators _).1 (by decide) (by decide),
   (c8_two_char_operators _).2.1 (by decide) (by decide),
   (c8_two_char_operators _).2.2.1 (by decide) (by decide),
   (c8_two_char_operators _).2.2.2 (by decide) (by decide)⟩

/-- C4 (refuting evaluation): the tokenizer can abort.  On the input with
the two characters § and 1, the first next_token call does yield the
Illegal token "§" (the section sign is neither whitespace, an operator, a
letter — in Unicode or ASCII — nor a digit) and advances, but the very
next call panics instead of returning a token: the digit-run slice at
lexer.rs:126 uses the character-counted cursor 1 as a byte offset, which
falls inside the two-byte UTF-8 encoding of §, so the tokenizer does not
continue normally after the Illegal token and "never aborts" fails. -/
theorem c4_tokenizer_panics_on_byte_slice :
    (Lexer.new ("§1".toList)).next_token_checked
        = some (Token.mk .Illegal (String.mk ['§']),
            (Lexer.new ("§1".toList)).read_char) ∧
    ((Lexer.new ("§1".toList)).read_char).next_token_checked = none :=
  ⟨by decide, by decide⟩

namespace Parser

/-- expect_peek on a mismatching peek token: failure and a peek_error. -/
theorem expect_peek_mismatch (p : Parser) (t : TokenType)
    (h : p.peek_token.token_type ≠ t) :
    p.expect_peek t = (false, p.peek_error t) := by
  unfold expect_peek
  have hb : p.peek_token_is t = false := by
    unfold peek_token_is
    exact beq_eq_false_iff_ne.mpr h
  rw [hb]
  simp

/-- expect_peek on a matching peek token: success and an advance. -/
theorem expect_peek_match (p : Parser) (t : TokenType)
    (h : p.peek_token.token_type = t) :
    p.expect_peek t = (true, p.next_token) := by
  unfold expect_peek
  have hb : p.peek_token_is t = true := by
    unfold peek_token_is
    exact beq_iff_eq.mpr h
  rw [hb]
  simp

end Parser

/-- C6: on a peek mismatch, expect_peek appends exactly one message of the
form (expected next token to be X, got Y instead) to the error list and
returns failure without advancing (current and peek token unchanged); on a
match it advances one token and appends no message. -/
theorem c6_expect_peek_spec (p : Parser) (t : TokenType) :
    (p.peek_token.token_type ≠ t →
      p.expect_peek t =
        (false, { p with errors := p.errors ++
          ["expected next token to be \"" ++ t.get_literal ++ "\", got \""
            ++ p.peek_token.token_type.get_literal ++ "\" instead"] }) ∧
      (p.expect_peek t).2.cur_token = p.cur_token ∧
      (p.expect_peek t).2.peek_token = p.peek_token) ∧
    (p.peek_token.token_type = t →
      p.expect_peek t = (true, p.next_token) ∧
      (p.expect_peek t).2.errors = p.errors) := by
  constructor
  · intro h
    have heq := Parser.expect_peek_mismatch p t h
    refine ⟨?_, ?_, ?_⟩ <;> rw [heq] <;> rfl
  · intro h
    have heq := Parser.expect_peek_match p t h
    exact ⟨heq, by rw [heq]; rfl⟩

/-- A sample parser state used by concrete witnesses: current token `let`,
peek token an integer literal. -/
def sample_state : Parser :=
  { lexer := Lexer.new []
    cur_token := Token.mk .Let "let"
    peek_token := Token.mk .Int "5"
    errors := [] }

/-- Witness for C6 at a concrete state: expecting Assign while peeking an
integer records one message and does not advance; expecting Int succeeds,
advances and records nothing. -/
theorem c6_expect_peek_spec_witness :
    (sample_state.expect_peek .Assign =
        (false, { sample_state with errors := sample_state.errors ++
          ["expected next token to be \"=\", got \"int\" instead"] }) ∧
      (sample_state.expect_peek .Assign).2.cur_token = sample_state.cur_token ∧
      (sample_state.expect_peek .Assign).2.peek_token = sample_state.peek_token) ∧
    (sample_state.expect_peek .Int = (true, sample_state.next_token) ∧
      (sample_state.expect_peek .Int).2.errors = sample_state.errors) :=
  ⟨(c6_expect_peek_spec sample_state .Assign).1 (by decide),
   (c6_expect_peek_spec sample_state .Int).2 (by decide)⟩

/-- C10: the kind-to-literal mapping returns the empty string for the
Identifier, Illegal and end-of-input kinds, so an expect_peek mismatch
whose expected kind is one of these records a message rendering the
expected kind as the empty string. -/
theorem c10_empty_expected_literal (p : Parser) (t : TokenType)
    (ht : t = .Ident ∨ t = .Illegal ∨ t = .Eof) :
    t.get_literal = "" ∧
    (p.peek_token.token_type ≠ t →
      (p.expect_peek t).2.errors = p.errors ++
        ["expected next token to be \"\", got \""
          ++ p.peek_token.token_type.get_literal ++ "\" instead"]) := by
  have hg : t.get_literal = "" := by
    rcases ht with rfl | rfl | rfl <;> rfl
  refine ⟨hg, fun h => ?_⟩
  rw [Parser.expect_peek_mismatch p t h]
  show (p.peek_error t).errors = _
  unfold Parser.peek_error
  rw [hg]
  have hpre : ("expected next token to be \"" ++ "" ++ "\", got \"" : String)
      = "expected next token to be \"\", got \"" := by decide
  rw [hpre]

/-- Witness for C10 at a concrete state (a let statement missing its
binding name: current token let, peek token an integer literal): the
recorded message renders the expected Identifier kind as the empty
string. -/
theorem c10_empty_expected_literal_witness :
    TokenType.Ident.get_literal = "" ∧
    (sample_state.expect_peek .Ident).2.errors =
      sample_state.errors ++ ["expected next token to be \"\", got \"int\" instead"] :=
  ⟨(c10_empty_expected_literal sample_state .Ident (Or.inl rfl)).1,
   (c10_empty_expected_literal sample_state .Ident (Or.inl rfl)).2 (by decide)⟩

namespace Parser

/-- prefix_parse on a token kind with no registered prefix rule yields no
expression and leaves the parser untouched. -/
theorem prefix_parse_default (fuel : Nat) (p : Parser)
    (h : p.cur_token.token_type ∉ ([.Ident, .Int, .Minus, .Bang] : List TokenType)) :
    prefix_parse (fuel + 1) p = some (none, p) := by
  simp only [List.mem_cons, List.mem_singleton, not_or] at h
  unfold prefix_parse
  split
  · exact absurd (by assumption) h.1
  · exact absurd (by assumption) h.2.1
  · exact absurd (by assumption) h.2.2.1
  · exact absurd (by assumption) h.2.2.2.1
  · rfl

end Parser

/-- C7: for a current token whose kind has no registered prefix rule
(anything other than identifier, integer, minus, bang), parse_expression
produces no expression and appends no diagnostic message: the failure is
silent. -/
theorem c7_no_prefix_rule_silent (fuel precedence : Nat) (p : Parser)
    (h : p.cur_token.token_type ∉ ([.Ident, .Int, .Minus, .Bang] : List TokenType))
    (hf : 2 ≤ fuel) :
    ∃ p', Parser.parse_expression fuel precedence p = some (none, p') ∧
      p'.errors = p.errors := by
  obtain ⟨f, rfl⟩ : ∃ f, fuel = f + 2 := ⟨fuel - 2, by omega⟩
  show ∃ p', Parser.parse_expression (f + 1 + 1) precedence p = some (none, p') ∧ _
  unfold Parser.parse_expression
  rw [Parser.prefix_parse_default f p h]
  unfold Parser.parse_expression_loop
  split
  · split
    · exact ⟨p, rfl, rfl⟩
    · exact ⟨p.next_token, rfl, rfl⟩
  · exact ⟨p, rfl, rfl⟩

/-- Witness for C7: a current token `+` (no prefix rule) gives no
expression and no message. -/
theorem c7_no_prefix_rule_silent_witness :
    (Parser.new (Lexer.new ("+".toList))).cur_token.token_type
        ∉ ([.Ident, .Int, .Minus, .Bang] : List TokenType) ∧
    ∃ p', Parser.parse_expression 2 1 (Parser.new (Lexer.new ("+".toList)))
        = some (none, p') ∧
      p'.errors = (Parser.new (Lexer.new ("+".toList))).errors :=
  ⟨by decide, c7_no_prefix_rule_silent 2 1 _ (by decide) (by omega)⟩

/-- C5: whenever parse_return_statement finishes, it succeeds structurally
(it never yields the no-statement result), and the produced return
statement carries the return token it started on together with the fixed
placeholder identifier value with literal foo, regardless of the tokens
following the return keyword. -/
theorem c5_return_placeholder_foo (fuel : Nat) (p : Parser)
    (h : Parser.parse_return_statement fuel p ≠ none) :
    ∃ p', Parser.parse_return_statement fuel p =
      some (some (Statement.Return
        ⟨p.cur_token, .Ident ⟨Token.mk .Ident "foo", "foo"⟩⟩), p') := by
  cases hsk : Parser.skip_to_semicolon fuel p.next_token with
  | none =>
    exfalso
    apply h
    unfold Parser.parse_return_statement
    simp only [hsk]
  | some p' =>
    refine ⟨p', ?_⟩
    unfold Parser.parse_return_statement
    simp only [hsk]

/-- Witness for C5 on the input "return 5;": the parsed value is the foo
placeholder, not the integer 5. -/
theorem c5_return_placeholder_foo_witness :
    Parser.parse_return_statement 20 (Parser.new (Lexer.new ("return 5;".toList)))
        ≠ none ∧
    ∃ p', Parser.parse_return_statement 20 (Parser.new (Lexer.new ("return 5;".toList)))
        = some (some (Statement.Return
          ⟨(Parser.new (Lexer.new ("return 5;".toList))).cur_token,
            .Ident ⟨Token.mk .Ident "foo", "foo"⟩⟩), p') :=
  ⟨by decide, c5_return_placeholder_foo 20 _ (by decide)⟩

namespace Parser

/-- When the skip-to-semicolon loop finishes, the current token kind is
Semicolon. -/
theorem skip_to_semicolon_cur :
    ∀ (fuel : Nat) (p p' : Parser), skip_to_semicolon fuel p = some p' →
      p'.cur_token.token_type = .Semicolon := by
  intro fuel
  induction fuel with
  | zero =>
    intro p p' h
    exact absurd h (by unfold skip_to_semicolon; simp)
  | succ f ih =>
    intro p p' h
    unfold skip_to_semicolon at h
    by_cases hc : p.cur_token_is .Semicolon = true
    · rw [if_pos hc] at h
      cases h
      exact beq_iff_eq.mp hc
    · rw [if_neg hc] at h
      exact ih _ _ h

end Parser

/-- C2 counterexample: parsing "let x = 5;" produces a single Let
statement whose stored token literal is ";" (the terminating semicolon),
not "let" (the literal of the token that originated the statement). -/
theorem c2_counterexample_let_token_not_let :
    (parse_input 40 ("let x = 5;".toList)).map
        (fun r => r.1.statements.map Statement.token_literal) = some [";"] ∧
    (";" : String) ≠ "let" :=
  ⟨by decide, by decide⟩

/-- C2 amended: a successfully parsed let statement stores the semicolon
token at which its token-skipping loop stopped (both as the statement's
token and inside its placeholder value), so its stored token literal is
that of the semicolon, not of the let keyword; the stored text is a copy
made at construction and is never mutated afterwards. -/
theorem c2_let_statement_stores_semicolon_token (fuel : Nat) (p : Parser)
    (h : (Parser.parse_let_statement fuel p).map (fun r => r.1.isSome) = some true) :
    ∃ ls p', Parser.parse_let_statement fuel p = some (some (Statement.Let ls), p')
      ∧ ls.token = p'.cur_token
      ∧ ls.token.token_type = .Semicolon
      ∧ ls.value = .Ident ⟨p'.cur_token, p'.cur_token.literal⟩ := by
  cases hres : Parser.parse_let_statement fuel p with
  | none => rw [hres] at h; simp at h
  | some r =>
    obtain ⟨ri, p2⟩ := r
    cases ri with
    | none => rw [hres] at h; simp at h
    | some st =>
      simp only [Parser.parse_let_statement] at hres
      split at hres
      · simp at hres
      · split at hres
        · simp at hres
        · cases hsk : Parser.skip_to_semicolon fuel
              ((p.expect_peek .Ident).2.expect_peek .Assign).2 with
          | none =>
            rw [hsk] at hres
            simp at hres
          | some p3 =>
            rw [hsk] at hres
            simp only [Option.some.injEq, Prod.mk.injEq] at hres
            obtain ⟨hst, hp2⟩ := hres
            subst hp2
            subst hst
            exact ⟨_, _, rfl, rfl, Parser.skip_to_semicolon_cur fuel _ _ hsk, rfl⟩

/-- Witness for C2 (amended) on the input "let x = 5;". -/
theorem c2_let_statement_stores_semicolon_token_witness :
    (Parser.parse_let_statement 20 (Parser.new (Lexer.new ("let x = 5;".toList)))).map
        (fun r => r.1.isSome) = some true ∧
    (∃ ls p', Parser.parse_let_statement 20 (Parser.new (Lexer.new ("let x = 5;".toList)))
        = some (some (Statement.Let ls), p')
      ∧ ls.token = p'.cur_token
      ∧ ls.token.token_type = .Semicolon
      ∧ ls.value = .Ident ⟨p'.cur_token, p'.cur_token.literal⟩) :=
  ⟨by decide, c2_let_statement_stores_semicolon_token 20 _ (by decide)⟩

namespace Parser

/-- A parser whose two buffered tokens are not semicolons and whose lexer
has reached end of input can never leave the skip-to-semicolon loop: the
loop runs out of any amount of fuel. -/
theorem skip_to_semicolon_stuck :
    ∀ (fuel : Nat) (p : Parser),
      p.cur_token.token_type ≠ .Semicolon →
      p.peek_token.token_type ≠ .Semicolon →
      p.lexer.Wf → p.lexer.ch = none →
      skip_to_semicolon fuel p = none := by
  intro fuel
  induction fuel with
  | zero => intro p _ _ _ _; rfl
  | succ f ih =>
    intro p h1 h2 hwf hch
    unfold skip_to_semicolon
    have hc : p.cur_token_is .Semicolon = false := by
      unfold cur_token_is
      exact beq_eq_false_iff_ne.mpr h1
    rw [hc]
    simp only [Bool.false_eq_true, if_false]
    apply ih
    · show p.peek_token.token_type ≠ .Semicolon
      exact h2
    · show ((p.lexer.next_token).1).token_type ≠ .Semicolon
      rw [Lexer.next_token_at_end _ hch]
      simp
    · show (p.lexer.next_token).2.Wf
      rw [Lexer.next_token_at_end _ hch]
      exact Lexer.read_char_wf _
    · show (p.lexer.next_token).2.ch = none
      rw [Lexer.next_token_at_end _ hch]
      exact Lexer.read_char_ch_none _ hwf hch

end Parser

/-- C1 (refuting evaluation): parsing the input "let x = 5", whose final
let statement is not followed by a semicolon, never completes: for every
amount of fuel the embedded parser reports that the computation did not
finish, because the skip-to-semicolon loop of parse_let_statement keeps
advancing over the end-of-input token forever. -/
theorem c1_parse_program_diverges_on_unterminated_let :
    ∀ fuel : Nat, parse_input fuel ("let x = 5".toList) = none := by
  intro fuel
  cases fuel with
  | zero => rfl
  | succ f =>
    have hstuck : Parser.skip_to_semicolon f
        (((Parser.new (Lexer.new ("let x = 5".toList))).expect_peek
            .Ident).2.expect_peek .Assign).2 = none := by
      apply Parser.skip_to_semicolon_stuck <;> decide
    have hps : Parser.parse_statement f (Parser.new (Lexer.new ("let x = 5".toList)))
        = Parser.parse_let_statement f (Parser.new (Lexer.new ("let x = 5".toList))) := by
      unfold Parser.parse_statement
      rw [show (Parser.new (Lexer.new ("let x = 5".toList))).cur_token.token_type
            = .Let from by decide]
    have hlet : Parser.parse_let_statement f (Parser.new (Lexer.new ("let x = 5".toList)))
        = none := by
      simp only [Parser.parse_let_statement]
      rw [hstuck]
      rw [show (!((Parser.new (Lexer.new ("let x = 5".toList))).expect_peek .Ident).1)
            = false from by decide]
      rw [show (!(((Parser.new (Lexer.new ("let x = 5".toList))).expect_peek
            .Ident).2.expect_peek .Assign).1) = false from by decide]
      simp
    show Parser.parse_program_loop (f + 1)
        (Parser.new (Lexer.new ("let x = 5".toList))) ⟨[]⟩ = none
    simp only [Parser.parse_program_loop]
    rw [show (Parser.new (Lexer.new ("let x = 5".toList))).cur_token_is .Eof
          = false from by decide]
    simp only [Bool.false_eq_true, if_false]
    rw [hps, hlet]
